import Mathlib

/-!
# Shallow embedding of the cargo-coupling core

This file embeds, in Lean 4, the parts of the `cargo-coupling` static-analysis
tool that its specification makes claims about:

* the metric enumerations and their numeric weights (`src/metrics.rs`),
* the balance-score engine and its interpretation bands (`src/balance.rs`),
* the per-edge and per-module issue rules (`src/balance.rs`),
* the health grade and the project score (`src/balance.rs`),
* the coupling extractor's deduplication, validity filter, target-module
  extraction, distance computation and coupling emission (`src/analyzer.rs`),
* dependency-graph construction, DFS cycle detection and cycle
  canonicalisation (`src/metrics.rs`).

Modelling conventions: Rust `f64` arithmetic is modelled with `ℚ` (every
weight in the program is a small dyadic rational, so the modelled
comparisons agree with the floating-point ones); Rust `usize` is `ℕ`;
Rust `String` is `String`; hash maps and hash sets are modelled as
association lists / lists, with their (run-dependent) iteration order made
explicit where the code iterates over them; Unicode character classes
(`char::is_lowercase`, `char::is_uppercase`) are modelled with the ASCII
classifiers, which agree on Rust identifiers.
-/

namespace CargoCoupling

/-- Visibility level of a Rust item (`Visibility` in `src/metrics.rs`). -/
inductive Visibility where
  | Public
  | PubCrate
  | PubSuper
  | PubIn
  | Private
deriving DecidableEq, Repr

/-- Integration strength levels (`IntegrationStrength` in `src/metrics.rs`). -/
inductive IntegrationStrength where
  | Intrusive
  | Functional
  | Model
  | Contract
deriving DecidableEq, Repr

/-- Numeric weight of an integration strength (`IntegrationStrength::value`). -/
def IntegrationStrength.value : IntegrationStrength → ℚ
  | .Intrusive => 1.0
  | .Functional => 0.75
  | .Model => 0.5
  | .Contract => 0.25

/-- Distance levels (`Distance` in `src/metrics.rs`). -/
inductive Distance where
  | SameFunction
  | SameModule
  | DifferentModule
  | DifferentCrate
deriving DecidableEq, Repr

/-- Numeric weight of a distance (`Distance::value`). -/
def Distance.value : Distance → ℚ
  | .SameFunction => 0.0
  | .SameModule => 0.25
  | .DifferentModule => 0.5
  | .DifferentCrate => 1.0

/-- Volatility levels (`Volatility` in `src/metrics.rs`). -/
inductive Volatility where
  | Low
  | Medium
  | High
deriving DecidableEq, Repr

/-- Numeric weight of a volatility (`Volatility::value`). -/
def Volatility.value : Volatility → ℚ
  | .Low => 0.0
  | .Medium => 0.5
  | .High => 1.0

/-- Classify a volatility from a commit count (`Volatility::from_count`). -/
def Volatility.fromCount (count : ℕ) : Volatility :=
  if count ≤ 2 then .Low
  else if count ≤ 10 then .Medium
  else .High

/-- Location information for a coupling (`CouplingLocation` in `src/metrics.rs`). -/
structure CouplingLocation where
  filePath : Option String
  line : ℕ
deriving DecidableEq, Repr

/-- Metrics for a single coupling relationship (`CouplingMetrics` in `src/metrics.rs`). -/
structure CouplingMetrics where
  source : String
  target : String
  strength : IntegrationStrength
  distance : Distance
  volatility : Volatility
  sourceCrate : Option String
  targetCrate : Option String
  targetVisibility : Visibility
  location : CouplingLocation
deriving DecidableEq, Repr

/-- `CouplingMetrics::strength_value`. -/
def CouplingMetrics.strengthValue (c : CouplingMetrics) : ℚ := c.strength.value

/-- `CouplingMetrics::distance_value`. -/
def CouplingMetrics.distanceValue (c : CouplingMetrics) : ℚ := c.distance.value

/-- `CouplingMetrics::volatility_value`. -/
def CouplingMetrics.volatilityValue (c : CouplingMetrics) : ℚ := c.volatility.value

/-- How to interpret a balance score (`BalanceInterpretation` in `src/balance.rs`). -/
inductive BalanceInterpretation where
  | Balanced
  | Acceptable
  | NeedsReview
  | NeedsRefactoring
  | Critical
deriving DecidableEq, Repr

/-- Balance score for a coupling relationship (`BalanceScore` in `src/balance.rs`). -/
structure BalanceScore where
  coupling : CouplingMetrics
  score : ℚ
  alignment : ℚ
  volatilityImpact : ℚ
  interpretation : BalanceInterpretation
deriving DecidableEq, Repr

/-- `BalanceScore::calculate` from `src/balance.rs`. -/
def BalanceScore.calculate (coupling : CouplingMetrics) : BalanceScore :=
  let strength := coupling.strengthValue
  let dist := coupling.distanceValue
  let vol := coupling.volatilityValue
  let alignment := 1.0 - |strength - (1.0 - dist)|
  let volatilityPenalty := vol * strength
  let volatilityImpact := 1.0 - volatilityPenalty
  let score := alignment * volatilityImpact
  let interpretation :=
    if 0.8 ≤ score then BalanceInterpretation.Balanced
    else if 0.6 ≤ score then BalanceInterpretation.Acceptable
    else if 0.4 ≤ score then BalanceInterpretation.NeedsReview
    else if 0.2 ≤ score then BalanceInterpretation.NeedsRefactoring
    else BalanceInterpretation.Critical
  { coupling := coupling
    score := score
    alignment := alignment
    volatilityImpact := volatilityImpact
    interpretation := interpretation }

/-- `BalanceScore::is_balanced`. -/
def BalanceScore.isBalanced (b : BalanceScore) : Bool :=
  match b.interpretation with
  | .Balanced | .Acceptable => true
  | _ => false

/-- `BalanceScore::needs_refactoring`. -/
def BalanceScore.needsRefactoring (b : BalanceScore) : Bool :=
  match b.interpretation with
  | .NeedsRefactoring | .Critical => true
  | _ => false

/-- Issue severity levels (`Severity` in `src/balance.rs`). -/
inductive Severity where
  | Low
  | Medium
  | High
  | Critical
deriving DecidableEq, Repr

/-- Types of coupling problems (`IssueType` in `src/balance.rs`). -/
inductive IssueType where
  | GlobalComplexity
  | CascadingChangeRisk
  | InappropriateIntimacy
  | HighEfferentCoupling
  | HighAfferentCoupling
  | UnnecessaryAbstraction
  | CircularDependency
  | ShallowModule
  | PassThroughMethod
  | HighCognitiveLoad
  | GodModule
  | PublicFieldExposure
  | PrimitiveObsession
deriving DecidableEq, Repr

/-- Specific refactoring actions (`RefactoringAction` in `src/balance.rs`). -/
inductive RefactoringAction where
  | IntroduceTrait (suggestedName : String) (methods : List String)
  | MoveCloser (targetLocation : String)
  | ExtractAdapter (adapterName : String) (purpose : String)
  | SplitModule (suggestedModules : List String)
  | SimplifyAbstraction (directUsage : String)
  | BreakCycle (suggestedDirection : String)
  | StabilizeInterface (interfaceName : String)
  | General (action : String)
  | AddGetters (fields : List String)
  | IntroduceNewtype (suggestedName : String) (wrappedType : String)
deriving DecidableEq, Repr

/-- A detected coupling issue (`CouplingIssue` in `src/balance.rs`). -/
structure CouplingIssue where
  issueType : IssueType
  severity : Severity
  source : String
  target : String
  description : String
  refactoring : RefactoringAction
  balanceScore : ℚ
deriving DecidableEq, Repr

/-- Thresholds for identifying issues (`IssueThresholds` in `src/balance.rs`). -/
structure IssueThresholds where
  strongCoupling : ℚ
  farDistance : ℚ
  highVolatility : ℚ
  maxDependencies : ℕ
  maxDependents : ℕ
  maxFunctions : ℕ
  maxTypes : ℕ
  maxImpls : ℕ
  minPrimitiveParams : ℕ
deriving DecidableEq, Repr

/-- `IssueThresholds::default` from `src/balance.rs`. -/
def IssueThresholds.default : IssueThresholds :=
  { strongCoupling := 0.75
    farDistance := 0.5
    highVolatility := 0.75
    maxDependencies := 20
    maxDependents := 30
    maxFunctions := 30
    maxTypes := 15
    maxImpls := 20
    minPrimitiveParams := 3 }

/-- Helper `extract_type_name` from `src/balance.rs`: last `::` segment with
its first character ASCII-uppercased. -/
def extractTypeName (path : String) : String :=
  let lastSeg := ((path.splitOn "::").getLast?).getD path
  match lastSeg.toList with
  | [] => ""
  | c :: cs => String.mk (c.toUpper :: cs)

/-- `identify_issues_with_thresholds` from `src/balance.rs` (patterns 1–3;
pattern 4, UnnecessaryAbstraction, is disabled in the source). -/
def identifyIssuesWithThresholds (coupling : CouplingMetrics)
    (_thresholds : IssueThresholds) : List CouplingIssue :=
  if coupling.distance = Distance.DifferentCrate then []
  else
    let balance := BalanceScore.calculate coupling
    let issues : List CouplingIssue := []
    let issues :=
      if coupling.strength = IntegrationStrength.Intrusive ∧
          coupling.distance = Distance.DifferentModule then
        issues ++ [{ issueType := IssueType.GlobalComplexity
                     severity := Severity.Medium
                     source := coupling.source
                     target := coupling.target
                     description := "Intrusive coupling to " ++ coupling.target ++
                       " across module boundary"
                     refactoring := RefactoringAction.IntroduceTrait
                       (extractTypeName coupling.target ++ "Trait")
                       ["// Extract required methods"]
                     balanceScore := balance.score }]
      else issues
    let issues :=
      if coupling.strength = IntegrationStrength.Intrusive ∧
          coupling.volatility = Volatility.High then
        issues ++ [{ issueType := IssueType.CascadingChangeRisk
                     severity := Severity.High
                     source := coupling.source
                     target := coupling.target
                     description := "Intrusive coupling to frequently-changed component " ++
                       coupling.target
                     refactoring := RefactoringAction.StabilizeInterface
                       (extractTypeName coupling.target ++ "Interface")
                     balanceScore := balance.score }]
      else issues
    let issues :=
      if coupling.strength = IntegrationStrength.Intrusive ∧
          coupling.distance = Distance.DifferentModule ∧
          balance.score < 0.5 then
        if ¬ issues.any (fun i => i.issueType = IssueType.GlobalComplexity) then
          issues ++ [{ issueType := IssueType.InappropriateIntimacy
                       severity := Severity.Medium
                       source := coupling.source
                       target := coupling.target
                       description := "Direct internal access to " ++ coupling.target ++
                         " across module boundary"
                       refactoring := RefactoringAction.IntroduceTrait
                         (extractTypeName coupling.target ++ "Api")
                         ["// Expose only necessary operations"]
                       balanceScore := balance.score }]
        else issues
      else issues
    issues

/-- Health grade for the overall project (`HealthGrade` in `src/balance.rs`). -/
inductive HealthGrade where
  | A
  | B
  | C
  | D
  | F
deriving DecidableEq, Repr

/-- `calculate_health_grade` from `src/balance.rs`.  The severity map is
modelled as a function (the source reads it with `get(..).unwrap_or(&0)`). -/
def calculateHealthGrade (issuesBySeverity : Severity → ℕ)
    (internalCouplings : ℕ) : HealthGrade :=
  let critical := issuesBySeverity Severity.Critical
  let high := issuesBySeverity Severity.High
  let medium := issuesBySeverity Severity.Medium
  if internalCouplings = 0 then HealthGrade.B
  else if 3 < critical then HealthGrade.F
  else
    let highDensity : ℚ := (high : ℚ) / (internalCouplings : ℚ)
    let mediumDensity : ℚ := (medium : ℚ) / (internalCouplings : ℚ)
    let totalIssueDensity : ℚ :=
      ((critical + high + medium : ℕ) : ℚ) / (internalCouplings : ℚ)
    if 0 < critical ∨ 0.05 < highDensity then HealthGrade.D
    else if 0 < high ∨ 0.25 < mediumDensity then HealthGrade.C
    else if 0.05 < mediumDensity ∨ 0.10 < totalIssueDensity then HealthGrade.B
    else if high = 0 ∧ mediumDensity ≤ 0.05 ∧ 10 ≤ internalCouplings then HealthGrade.A
    else HealthGrade.B

/-- The health-grade rule list exactly as the specification words it
(first matching rule of: N=0 → B; C>3 → F; C>0 or H/N>0.05 → D; H>0 or
M/N>0.25 → C; M/N>0.05 or (C+H+M)/N>0.10 → B; H=0 and M/N≤0.05 and N≥10 → A;
otherwise B).  Written from the spec, to be compared with
`calculateHealthGrade`, which is written from the source. -/
def specHealthGrade (critical high medium n : ℕ) : HealthGrade :=
  if n = 0 then HealthGrade.B
  else if 3 < critical then HealthGrade.F
  else if 0 < critical ∨ (0.05 : ℚ) < (high : ℚ) / (n : ℚ) then HealthGrade.D
  else if 0 < high ∨ (0.25 : ℚ) < (medium : ℚ) / (n : ℚ) then HealthGrade.C
  else if (0.05 : ℚ) < (medium : ℚ) / (n : ℚ) ∨
      (0.10 : ℚ) < ((critical + high + medium : ℕ) : ℚ) / (n : ℚ) then HealthGrade.B
  else if high = 0 ∧ (medium : ℚ) / (n : ℚ) ≤ 0.05 ∧ 10 ≤ n then HealthGrade.A
  else HealthGrade.B

/-- `calculate_project_score` from `src/balance.rs`. -/
def calculateProjectScore (couplings : List CouplingMetrics) : ℚ :=
  let internalScores :=
    (couplings.filter (fun c => decide (c.distance ≠ Distance.DifferentCrate))).map
      (fun c => (BalanceScore.calculate c).score)
  if internalScores.isEmpty then 1.0
  else internalScores.sum / (internalScores.length : ℚ)

/-! ## Per-function slice of `analyze_rust_patterns` (PrimitiveObsession) -/

/-- Information about a function definition (`FunctionDefinition` in
`src/metrics.rs`). -/
structure FunctionDefinition where
  name : String
  visibility : Visibility
  paramCount : ℕ
  primitiveParamCount : ℕ
  paramTypes : List String
deriving DecidableEq, Repr

/-- Helper `capitalize_first` from `src/balance.rs`. -/
def capitalizeFirst (s : String) : String :=
  match s.toList with
  | [] => ""
  | c :: cs => String.mk (c.toUpper :: cs)

/-- The PrimitiveObsession detection of `analyze_rust_patterns` in
`src/balance.rs`, for one function of one module (the source runs this body
for every `func_def` in `module.function_definitions.values()`). -/
def primitiveObsessionIssues (moduleName : String) (funcDef : FunctionDefinition)
    (thresholds : IssueThresholds) : List CouplingIssue :=
  if thresholds.minPrimitiveParams ≤ funcDef.primitiveParamCount ∧
      thresholds.minPrimitiveParams ≤ funcDef.paramCount then
    let r : ℚ := (funcDef.primitiveParamCount : ℚ) / (funcDef.paramCount : ℚ)
    if 0.6 ≤ r then
      [{ issueType := IssueType.PrimitiveObsession
         severity := Severity.Low
         source := moduleName ++ "::" ++ funcDef.name
         target := toString funcDef.primitiveParamCount ++ "/" ++
           toString funcDef.paramCount ++ " primitive params"
         description := "Function " ++ funcDef.name ++ " has " ++
           toString funcDef.primitiveParamCount ++
           " primitive parameters. Consider newtype pattern."
         refactoring := RefactoringAction.IntroduceNewtype
           (capitalizeFirst funcDef.name ++ "Params") "// Group related parameters"
         balanceScore := 0.7 }]
    else []
  else []

/-! ## The AST coupling extractor (`src/analyzer.rs`) -/

/-- Kind of dependency (`DependencyKind` in `src/analyzer.rs`). -/
inductive DependencyKind where
  | InternalUse
  | ExternalUse
  | TraitImpl
  | InherentImpl
  | TypeRef
deriving DecidableEq, Repr

/-- Context of how a dependency is used (`UsageContext` in `src/analyzer.rs`). -/
inductive UsageContext where
  | Import
  | TraitBound
  | FieldAccess
  | MethodCall
  | FunctionCall
  | StructConstruction
  | TypeParameter
  | FunctionParameter
  | ReturnType
  | InherentImplBlock
deriving DecidableEq, Repr

/-- `UsageContext::to_strength` from `src/analyzer.rs`. -/
def UsageContext.toStrength : UsageContext → IntegrationStrength
  | .FieldAccess => IntegrationStrength.Intrusive
  | .StructConstruction => IntegrationStrength.Intrusive
  | .InherentImplBlock => IntegrationStrength.Intrusive
  | .MethodCall => IntegrationStrength.Functional
  | .FunctionCall => IntegrationStrength.Functional
  | .FunctionParameter => IntegrationStrength.Functional
  | .ReturnType => IntegrationStrength.Functional
  | .TypeParameter => IntegrationStrength.Model
  | .Import => IntegrationStrength.Model
  | .TraitBound => IntegrationStrength.Contract

/-- Represents a detected dependency (`Dependency` in `src/analyzer.rs`). -/
structure Dependency where
  path : String
  kind : DependencyKind
  line : ℕ
  usage : UsageContext
deriving DecidableEq, Repr

/-- Kind of source item (`ItemKind` in `src/analyzer.rs`). -/
inductive ItemKind where
  | Function
  | Method
  | Struct
  | Enum
  | Trait
  | Impl
  | Module
deriving DecidableEq, Repr

/-- Type of item-level dependency (`ItemDepType` in `src/analyzer.rs`). -/
inductive ItemDepType where
  | FunctionCall
  | MethodCall
  | TypeUsage
  | FieldAccess
  | StructConstruction
  | TraitImpl
  | TraitBound
  | Import
deriving DecidableEq, Repr

/-- Detailed dependency at the item level (`ItemDependency` in
`src/analyzer.rs`). -/
structure ItemDependency where
  sourceItem : String
  sourceKind : ItemKind
  target : String
  targetModule : Option String
  depType : ItemDepType
  line : ℕ
  expression : Option String
deriving DecidableEq, Repr

/-- Statistics about usage patterns (`UsageCounts` in `src/analyzer.rs`). -/
structure UsageCounts where
  fieldAccesses : ℕ
  methodCalls : ℕ
  functionCalls : ℕ
  structConstructions : ℕ
  traitBounds : ℕ
  typeParameters : ℕ
deriving DecidableEq, Repr

/-- The mutable state of the AST visitor (`CouplingAnalyzer` in
`src/analyzer.rs`), restricted to the fields read or written by the
operations embedded here.  The hash set `seen_dependencies` and the hash
maps are modelled as lists. -/
structure CouplingAnalyzer where
  currentModule : String
  dependencies : List Dependency
  definedTypes : List String
  definedFunctions : List (String × Visibility)
  importedTypes : List (String × String)
  seenDependencies : List (String × UsageContext)
  usageCounts : UsageCounts
  currentItem : Option (String × ItemKind)
  itemDependencies : List ItemDependency
deriving DecidableEq, Repr

/-- `CouplingAnalyzer::new`. -/
def CouplingAnalyzer.new (moduleName : String) : CouplingAnalyzer :=
  { currentModule := moduleName
    dependencies := []
    definedTypes := []
    definedFunctions := []
    importedTypes := []
    seenDependencies := []
    usageCounts := ⟨0, 0, 0, 0, 0, 0⟩
    currentItem := none
    itemDependencies := [] }

/-- `CouplingAnalyzer::add_dependency`: deduplicated push keyed by
`(path, usage)`. -/
def CouplingAnalyzer.addDependency (st : CouplingAnalyzer) (path : String)
    (kind : DependencyKind) (usage : UsageContext) : CouplingAnalyzer :=
  if (path, usage) ∈ st.seenDependencies then st
  else
    { st with
      seenDependencies := (path, usage) :: st.seenDependencies
      dependencies := st.dependencies ++ [{ path := path, kind := kind, line := 0, usage := usage }] }

/-- `CouplingAnalyzer::add_item_dependency`: records an item-level dependency
when a current item is set; the target module is resolved from the
imported-types map, falling back to the current module for locally defined
names. -/
def CouplingAnalyzer.addItemDependency (st : CouplingAnalyzer) (target : String)
    (depType : ItemDepType) (line : ℕ) (expression : Option String) : CouplingAnalyzer :=
  match st.currentItem with
  | none => st
  | some (sourceItem, sourceKind) =>
    let targetModule :=
      match st.importedTypes.lookup target with
      | some p => some p
      | none =>
        if target ∈ st.definedTypes ∨ (st.definedFunctions.lookup target).isSome then
          some st.currentModule
        else none
    { st with
      itemDependencies := st.itemDependencies ++
        [{ sourceItem := sourceItem
           sourceKind := sourceKind
           target := target
           targetModule := targetModule
           depType := depType
           line := line
           expression := expression }] }

/-- `CouplingAnalyzer::is_primitive_type`: fixed allow-list, plus very short
all-lowercase names, plus `self`-rooted names. -/
def CouplingAnalyzer.isPrimitiveType (_st : CouplingAnalyzer) (typeName : String) : Bool :=
  if typeName ∈ ["bool", "char", "str", "u8", "u16", "u32", "u64", "u128", "usize",
      "i8", "i16", "i32", "i64", "i128", "isize", "f32", "f64", "String", "Self",
      "()", "Option", "Result", "Vec", "Box", "Rc", "Arc", "RefCell", "Cell",
      "Mutex", "RwLock"] then true
  else if typeName.length ≤ 3 ∧ typeName.toList.all (fun c => c.isLower) then true
  else if "self".isPrefixOf typeName ∨ typeName = "self" then true
  else false

/-- Rust `str::contains` for a fixed pattern, on character lists. -/
def containsSub (pat : List Char) : List Char → Bool
  | [] => List.isPrefixOf pat []
  | c :: rest => List.isPrefixOf pat (c :: rest) || containsSub pat rest

/-- The `visit_expr_call` visitor method from `src/analyzer.rs`, for a call
whose callee is a path expression with the given segments (the source joins
the segment idents with `::`).  Multi-segment or uppercase-initial paths are
treated as constructor/associated calls and may add a coupling candidate;
lowercase single-segment calls only add an item-level dependency. -/
def CouplingAnalyzer.visitExprCallPath (st : CouplingAnalyzer)
    (segments : List String) : CouplingAnalyzer :=
  let pathStr := String.intercalate "::" segments
  if containsSub "::".toList pathStr.toList ∨
      (pathStr.toList.head?.map Char.isUpper).getD false then
    let fullPath := (st.importedTypes.lookup pathStr).getD pathStr
    let st1 :=
      if ¬ st.isPrimitiveType fullPath ∧ fullPath ∉ st.definedTypes then
        let st' := st.addDependency fullPath DependencyKind.TypeRef UsageContext.FunctionCall
        { st' with usageCounts :=
            { st'.usageCounts with functionCalls := st'.usageCounts.functionCalls + 1 } }
      else st
    st1.addItemDependency fullPath ItemDepType.FunctionCall 0 (some (pathStr ++ "()"))
  else
    st.addItemDependency pathStr ItemDepType.FunctionCall 0 (some (pathStr ++ "()"))

/-! ### Path utilities of the aggregator (`src/analyzer.rs`) -/

/-- Prepend a character to the first segment of a segment list. -/
def consHead (c : Char) : List (List Char) → List (List Char)
  | [] => [[c]]
  | seg :: segs => (c :: seg) :: segs

/-- Splitting a character list at every (non-overlapping, left-to-right)
occurrence of `::`, as Rust's `str::split("::")` does. -/
def splitSegsList : List Char → List (List Char)
  | [] => [[]]
  | [c] => [[c]]
  | c1 :: c2 :: rest =>
    if c1 = ':' ∧ c2 = ':' then [] :: splitSegsList rest
    else consHead c1 (splitSegsList (c2 :: rest))

/-- Rust `path.split("::")` on a string, producing the segments as strings. -/
def splitPath (p : String) : List String :=
  (splitSegsList p.toList).map (fun cs => String.mk cs)

/-- Rust `str::starts_with` on strings. -/
def strStartsWith (s pat : String) : Bool :=
  List.isPrefixOf pat.toList s.toList

/-- Fuelled worker for `trimStartMatches`. -/
def trimStartMatchesAux (pat : List Char) : ℕ → List Char → List Char
  | 0, s => s
  | Nat.succ n, s =>
    if pat ≠ [] ∧ List.isPrefixOf pat s then trimStartMatchesAux pat n (s.drop pat.length)
    else s

/-- Rust `str::trim_start_matches`: repeatedly strip the pattern from the
front.  The fuel `s.length` dominates the number of iterations, since each
successful strip removes at least one character. -/
def trimStartMatches (s pat : List Char) : List Char :=
  trimStartMatchesAux pat s.length s

/-- `extract_target_module` from `src/analyzer.rs`: strip `crate::`,
`super::` and `::` prefixes, then take the first `::`-segment. -/
def extractTargetModule (path : String) : String :=
  String.mk ((splitSegsList
    (trimStartMatches
      (trimStartMatches (trimStartMatches path.toList "crate::".toList) "super::".toList)
      "::".toList)).headI)

/-- The fixed allow-list of common local-variable names from
`is_valid_dependency_path` in `src/analyzer.rs`. -/
def commonLocals : List String :=
  ["request", "response", "result", "content", "config", "proto", "domain",
   "info", "data", "item", "value", "error", "message", "expected", "actual",
   "status", "state", "context", "params", "args", "options", "settings",
   "violation", "page_token"]

/-- `is_valid_dependency_path` from `src/analyzer.rs` (the Rust function
binds `segments = path.split("::")` and `last_segment` once; they are
inlined here as `splitPath path` and `(splitPath path).getLast?.getD path`). -/
def isValidDependencyPath (path : String) : Bool :=
  if path = "" then false
  else if path = "Self" ∨ strStartsWith path "Self::" then false
  else if (splitPath path).length = 1 ∧ (splitPath path).headI.length ≤ 8 ∧
      (splitPath path).headI.toList.all (fun c => c.isLower ∨ c = '_') then false
  else if 2 ≤ (splitPath path).length ∧
      (splitPath path).getLast? = (splitPath path).get? ((splitPath path).length - 2) then
    false
  else if ((splitPath path).getLast?.getD path) ∈ commonLocals ∧
      (splitPath path).length ≤ 2 then false
  else true

/-- `calculate_distance` from `src/analyzer.rs` (prefix-based fallback). -/
def calculateDistance (depPath : String) (_knownModules : List String) : Distance :=
  if strStartsWith depPath "crate::" ∨ strStartsWith depPath "super::" then
    Distance.DifferentModule
  else if strStartsWith depPath "self::" then Distance.SameModule
  else Distance.DifferentCrate

/-- Per-dependency body of the second pass of `analyze_project_parallel` in
`src/analyzer.rs`: validity filtering, target-module extraction and
validation, distance, strength from the usage context, default volatility,
registry-based visibility, and the emitted `CouplingMetrics`.  The global
type registry `type name → (module, visibility)` is modelled as an
association list. -/
def emitCoupling (moduleNames : List String)
    (typeRegistry : List (String × String × Visibility))
    (sourceModule : String) (filePath : String) (dep : Dependency) :
    Option CouplingMetrics :=
  if ¬ isValidDependencyPath dep.path then none
  else
    let targetModule := extractTargetModule dep.path
    if ¬ targetModule ∈ moduleNames ∧ ¬ isValidDependencyPath targetModule then none
    else
      let dist := calculateDistance dep.path moduleNames
      let strength := dep.usage.toStrength
      let vol := Volatility.Low
      let targetType := ((splitPath dep.path).getLast?).getD dep.path
      let vis := ((typeRegistry.lookup targetType).map Prod.snd).getD Visibility.Public
      some { source := sourceModule
             target := targetModule
             strength := strength
             distance := dist
             volatility := vol
             sourceCrate := none
             targetCrate := none
             targetVisibility := vis
             location := { filePath := some filePath, line := dep.line } }

/-- The couplings emitted for one analyzed file: the second-pass loop of
`analyze_project_parallel` over that file's dependency list. -/
def fileCouplings (moduleNames : List String)
    (typeRegistry : List (String × String × Visibility))
    (sourceModule : String) (filePath : String) (deps : List Dependency) :
    List CouplingMetrics :=
  deps.filterMap (emitCoupling moduleNames typeRegistry sourceModule filePath)

/-! ## Dependency graph and cycle detection (`src/metrics.rs`)

The source stores the graph in a `HashMap<String, HashSet<String>>` and
iterates over it; iteration order of those containers is a per-run artifact
(`RandomState`).  The embedding therefore represents the graph as an
association list `List (String × List String)` whose order makes the
iteration order explicit. -/

/-- Insert one directed edge into the adjacency structure, as
`graph.entry(source).or_default().insert(target)` does (set semantics;
first-seen order made explicit). -/
def insertEdge (g : List (String × List String)) (src tgt : String) :
    List (String × List String) :=
  match g with
  | [] => [(src, [tgt])]
  | (k, nbrs) :: rest =>
    if k = src then (k, if tgt ∈ nbrs then nbrs else nbrs ++ [tgt]) :: rest
    else (k, nbrs) :: insertEdge rest src tgt

/-- `ProjectMetrics::build_dependency_graph`: edges from every coupling whose
distance is not `DifferentCrate`. -/
def buildDependencyGraph (couplings : List CouplingMetrics) :
    List (String × List String) :=
  couplings.foldl
    (fun g c =>
      if c.distance = Distance.DifferentCrate then g
      else insertEdge g c.source c.target)
    []

/-- The mutable state threaded through `dfs_find_cycles`. -/
structure DfsState where
  visited : List String
  recStack : List String
  path : List String
  cycles : List (List String)
deriving DecidableEq, Repr

/-- The back-edge branch of `dfs_find_cycles`: slice the current path from
the first occurrence of the back-target and record it when it has length at
least 2. -/
def pushCycle (nb : String) (st : DfsState) : DfsState :=
  match st.path.findIdx? (fun x => x == nb) with
  | some startIdx =>
    let cyc := st.path.drop startIdx
    if 2 ≤ cyc.length then { st with cycles := st.cycles ++ [cyc] } else st
  | none => st

/-- The entry bookkeeping of `dfs_find_cycles`: mark the node visited, push
it on the recursion stack and append it to the current path. -/
def dfsEnter (node : String) (st : DfsState) : DfsState :=
  { st with
    visited := node :: st.visited
    recStack := node :: st.recStack
    path := st.path ++ [node] }

/-- The exit bookkeeping of `dfs_find_cycles`: pop the path and remove the
node from the recursion stack. -/
def dfsExit (node : String) (st : DfsState) : DfsState :=
  { st with path := st.path.dropLast, recStack := st.recStack.erase node }

/-- `dfs_find_cycles` from `src/metrics.rs`.  The recursion is fuelled; the
fuel chosen by `detectCircularDependencies` exceeds the recursion depth
(every recursive call is on a freshly visited node), so the fuel never runs
out there. -/
def dfsVisit : ℕ → List (String × List String) → String → DfsState → DfsState
  | 0, _, _, st => st
  | Nat.succ fuel, g, node, st =>
    dfsExit node
      (((g.lookup node).getD []).foldl
        (fun acc nb =>
          if nb ∈ acc.visited then
            if nb ∈ acc.recStack then pushCycle nb acc else acc
          else dfsVisit fuel g nb acc)
        (dfsEnter node st))

/-- `ProjectMetrics::normalize_cycle`: first position of the minimum
element (Rust `Iterator::min_by_key` returns the first minimum; Rust string
comparison is lexicographic on the character sequence, modelled by the
lexicographic order on `toList`). -/
def minPair : List String → ℕ → ℕ × String → ℕ × String
  | [], _, best => best
  | x :: xs, i, best =>
    if x.toList < best.2.toList then minPair xs (i + 1) (i, x)
    else minPair xs (i + 1) best

/-- Rotate a cycle so that its lexicographically smallest element comes
first (`ProjectMetrics::normalize_cycle`; the Rust binds `min_pos` once, it
is inlined here). -/
def normalizeCycle (cycle : List String) : List String :=
  match cycle with
  | [] => []
  | x :: xs =>
    (x :: xs).drop ((minPair xs 1 (0, x)).1) ++ (x :: xs).take ((minPair xs 1 (0, x)).1)

/-- The deduplication loop at the end of `detect_circular_dependencies`:
keep a cycle (in its original rotation) unless a previously kept cycle has
the same canonical form. -/
def dedupCycles (cycles : List (List String)) : List (List String) :=
  cycles.foldl
    (fun unique cyc =>
      let normalized := normalizeCycle cyc
      if unique.any (fun c => normalizeCycle c == normalized) then unique
      else unique ++ [cyc])
    []

/-- `ProjectMetrics::detect_circular_dependencies`: DFS from every
unvisited key, then cycle deduplication.  The fuel bounds the DFS depth by
one more than the total number of node occurrences in the graph. -/
def detectCircularDependencies (g : List (String × List String)) :
    List (List String) :=
  let fuel := (g.map Prod.fst ++ (g.map Prod.snd).flatten).length + 1
  let final :=
    g.foldl
      (fun st e => if e.1 ∈ st.visited then st else dfsVisit fuel g e.1 st)
      ⟨[], [], [], []⟩
  dedupCycles final.cycles

/-! ## Derived and specification-side definitions used by the proofs -/

/-- The interpretation chain of `BalanceScore::calculate`, as a function of
the score alone. -/
def interpretationOf (q : ℚ) : BalanceInterpretation :=
  if 0.8 ≤ q then BalanceInterpretation.Balanced
  else if 0.6 ≤ q then BalanceInterpretation.Acceptable
  else if 0.4 ≤ q then BalanceInterpretation.NeedsReview
  else if 0.2 ≤ q then BalanceInterpretation.NeedsRefactoring
  else BalanceInterpretation.Critical

/-- A module name that occurs as an endpoint of some internal (non
external-crate) coupling. -/
def goodNode (couplings : List CouplingMetrics) (m : String) : Prop :=
  ∃ c ∈ couplings, c.distance ≠ Distance.DifferentCrate ∧ (m = c.source ∨ m = c.target)

/-- Every key and every neighbor of the graph satisfies `P`. -/
def GraphGood (P : String → Prop) (g : List (String × List String)) : Prop :=
  ∀ e ∈ g, P e.1 ∧ ∀ nb ∈ e.2, P nb

/-- Every path element and every recorded cycle element satisfies `P`. -/
def StGood (P : String → Prop) (st : DfsState) : Prop :=
  (∀ m ∈ st.path, P m) ∧ (∀ cyc ∈ st.cycles, ∀ m ∈ cyc, P m)

/-- The deduplication key of a dependency record. -/
def depKey (d : Dependency) : String × UsageContext := (d.path, d.usage)

/-- Running a sequence of `add_dependency` calls on a fresh analyzer, as
the visitor does while walking one file's AST. -/
def runAddDependencies (moduleName : String)
    (reqs : List (String × DependencyKind × UsageContext)) : CouplingAnalyzer :=
  reqs.foldl (fun st r => st.addDependency r.1 r.2.1 r.2.2)
    (CouplingAnalyzer.new moduleName)

/-- The primitive/local-variable filter exactly as the claim words it:
allow-listed names, single-segment all-lowercase-or-underscore names of at
most 8 characters, and names beginning with `Self`/`self`.  Written from
the claim, to be compared with the behaviour of the source-derived
emission. -/
def specPrimitiveLocalFilter (p : String) : Bool :=
  decide (p ∈ commonLocals) ||
  (decide ((splitPath p).length = 1) && decide (p.length ≤ 8) &&
    p.toList.all (fun c => c.isLower ∨ c = '_')) ||
  decide (p = "Self") || decide (p = "self") ||
  strStartsWith p "Self::" || strStartsWith p "self::"

/-- The dependency graph of scenario S3 extended with mutual edges, in two
iteration orders that a hash map could legitimately produce for the same
edge set. -/
def cycleGraphA : List (String × List String) :=
  [("a", ["b", "c"]), ("b", ["a", "c"]), ("c", ["b", "a"])]

/-- The same graph as `cycleGraphA` (same keys, same neighbor sets), with a
different iteration order. -/
def cycleGraphB : List (String × List String) :=
  [("b", ["a", "c"]), ("a", ["b", "c"]), ("c", ["b", "a"])]

/-- Two adjacency lists represent the same node and edge sets. -/
def graphSameSets (ga gb : List (String × List String)) : Bool :=
  decide ((ga.map Prod.fst).Perm (gb.map Prod.fst)) &&
  ga.all (fun e =>
    match gb.lookup e.1 with
    | some nbrs => decide (e.2.Perm nbrs)
    | none => false) &&
  gb.all (fun e =>
    match ga.lookup e.1 with
    | some nbrs => decide (e.2.Perm nbrs)
    | none => false)

/-! ## Helper lemmas -/

lemma calculate_interpretation (c : CouplingMetrics) :
    (BalanceScore.calculate c).interpretation =
      interpretationOf (BalanceScore.calculate c).score := rfl

lemma interpretationOf_balanced (q : ℚ) :
    interpretationOf q = BalanceInterpretation.Balanced ↔ 0.8 ≤ q := by
  unfold interpretationOf
  split_ifs <;> simp_all

lemma interpretationOf_acceptable (q : ℚ) :
    interpretationOf q = BalanceInterpretation.Acceptable ↔ 0.6 ≤ q ∧ q < 0.8 := by
  unfold interpretationOf
  split_ifs with h1 h2 <;> simp_all <;> intro h <;> linarith

lemma interpretationOf_needsReview (q : ℚ) :
    interpretationOf q = BalanceInterpretation.NeedsReview ↔ 0.4 ≤ q ∧ q < 0.6 := by
  unfold interpretationOf
  split_ifs with h1 h2 h3 <;> simp_all <;> intro h <;> linarith

lemma interpretationOf_needsRefactoring (q : ℚ) :
    interpretationOf q = BalanceInterpretation.NeedsRefactoring ↔ 0.2 ≤ q ∧ q < 0.4 := by
  unfold interpretationOf
  split_ifs with h1 h2 h3 h4 <;> simp_all <;> intro h <;> linarith

lemma interpretationOf_critical (q : ℚ) :
    interpretationOf q = BalanceInterpretation.Critical ↔ q < 0.2 := by
  unfold interpretationOf
  split_ifs <;> simp_all <;> linarith

lemma isBalanced_iff (b : BalanceScore) :
    b.isBalanced = true ↔
      b.interpretation = BalanceInterpretation.Balanced ∨
      b.interpretation = BalanceInterpretation.Acceptable := by
  cases h : b.interpretation <;> simp [BalanceScore.isBalanced, h]

lemma needsRefactoring_iff (b : BalanceScore) :
    b.needsRefactoring = true ↔
      b.interpretation = BalanceInterpretation.NeedsRefactoring ∨
      b.interpretation = BalanceInterpretation.Critical := by
  cases h : b.interpretation <;> simp [BalanceScore.needsRefactoring, h]

/-! ## Theorems for the claims -/

/-- C1: for every coupling with strength weight `s`, distance weight `d` and
volatility weight `v`, the computed balance score is
`(1 − |s − (1 − d)|) · (1 − v·s)`; the interpretation is `Balanced` iff the
score is ≥ 0.80, `Acceptable` iff in [0.60, 0.80), `NeedsReview` iff in
[0.40, 0.60), `NeedsRefactoring` iff in [0.20, 0.40) and `Critical`
otherwise; the coupling is reported balanced iff the interpretation is
`Balanced` or `Acceptable`, and as needing refactoring iff it is
`NeedsRefactoring` or `Critical`. -/
theorem c1_balance_score_and_bands (c : CouplingMetrics) :
    ((BalanceScore.calculate c).score =
      (1 - |c.strengthValue - (1 - c.distanceValue)|) *
        (1 - c.volatilityValue * c.strengthValue)) ∧
    ((BalanceScore.calculate c).interpretation = BalanceInterpretation.Balanced ↔
      0.8 ≤ (BalanceScore.calculate c).score) ∧
    ((BalanceScore.calculate c).interpretation = BalanceInterpretation.Acceptable ↔
      0.6 ≤ (BalanceScore.calculate c).score ∧ (BalanceScore.calculate c).score < 0.8) ∧
    ((BalanceScore.calculate c).interpretation = BalanceInterpretation.NeedsReview ↔
      0.4 ≤ (BalanceScore.calculate c).score ∧ (BalanceScore.calculate c).score < 0.6) ∧
    ((BalanceScore.calculate c).interpretation = BalanceInterpretation.NeedsRefactoring ↔
      0.2 ≤ (BalanceScore.calculate c).score ∧ (BalanceScore.calculate c).score < 0.4) ∧
    ((BalanceScore.calculate c).interpretation = BalanceInterpretation.Critical ↔
      (BalanceScore.calculate c).score < 0.2) ∧
    ((BalanceScore.calculate c).isBalanced = true ↔
      (BalanceScore.calculate c).interpretation = BalanceInterpretation.Balanced ∨
      (BalanceScore.calculate c).interpretation = BalanceInterpretation.Acceptable) ∧
    ((BalanceScore.calculate c).needsRefactoring = true ↔
      (BalanceScore.calculate c).interpretation = BalanceInterpretation.NeedsRefactoring ∨
      (BalanceScore.calculate c).interpretation = BalanceInterpretation.Critical) := by
  refine ⟨?_, ?_, ?_, ?_, ?_, ?_, ?_, ?_⟩
  · show (1.0 - _) * _ = _
    norm_num [BalanceScore.calculate]
  · rw [calculate_interpretation, interpretationOf_balanced]
  · rw [calculate_interpretation, interpretationOf_acceptable]
  · rw [calculate_interpretation, interpretationOf_needsReview]
  · rw [calculate_interpretation, interpretationOf_needsRefactoring]
  · rw [calculate_interpretation, interpretationOf_critical]
  · exact isBalanced_iff _
  · exact needsRefactoring_iff _

/-- C2: the health grade follows exactly the first-matching-rule list of the
specification; the computation is total; with no internal couplings the
average project score is 1.0 and the grade is B. -/
theorem c2_health_grade_spec :
    (∀ (issuesBySeverity : Severity → ℕ) (n : ℕ),
      calculateHealthGrade issuesBySeverity n =
        specHealthGrade (issuesBySeverity Severity.Critical)
          (issuesBySeverity Severity.High) (issuesBySeverity Severity.Medium) n) ∧
    (∀ issuesBySeverity, calculateHealthGrade issuesBySeverity 0 = HealthGrade.B) ∧
    (∀ couplings : List CouplingMetrics,
      (∀ c ∈ couplings, c.distance = Distance.DifferentCrate) →
      calculateProjectScore couplings = 1) := by
  refine ⟨fun f n => rfl, fun f => rfl, ?_⟩
  intro couplings h
  have hfil : couplings.filter (fun c => decide (c.distance ≠ Distance.DifferentCrate)) = [] := by
    rw [List.filter_eq_nil_iff]
    intro c hc
    simp [h c hc]
  simp only [calculateProjectScore]
  rw [hfil]
  norm_num

/-- Witness for C2 at a concrete external-only coupling list. -/
theorem c2_witness :
    calculateProjectScore
      [{ source := "a", target := "serde", strength := IntegrationStrength.Model,
         distance := Distance.DifferentCrate, volatility := Volatility.Low,
         sourceCrate := none, targetCrate := none,
         targetVisibility := Visibility.Public,
         location := { filePath := none, line := 0 } }] = 1 :=
  c2_health_grade_spec.2.2 _ (by decide)

/-- C3: every emitted coupling's strength is the fixed projection of its
originating usage context, and the projection table is exactly the one the
specification states. -/
theorem c3_strength_from_context :
    (∀ (moduleNames : List String) (reg : List (String × String × Visibility))
        (src fp : String) (dep : Dependency) (c : CouplingMetrics),
        emitCoupling moduleNames reg src fp dep = some c →
        c.strength = dep.usage.toStrength) ∧
    (UsageContext.toStrength .FieldAccess = IntegrationStrength.Intrusive ∧
     UsageContext.toStrength .StructConstruction = IntegrationStrength.Intrusive ∧
     UsageContext.toStrength .InherentImplBlock = IntegrationStrength.Intrusive ∧
     UsageContext.toStrength .MethodCall = IntegrationStrength.Functional ∧
     UsageContext.toStrength .FunctionCall = IntegrationStrength.Functional ∧
     UsageContext.toStrength .FunctionParameter = IntegrationStrength.Functional ∧
     UsageContext.toStrength .ReturnType = IntegrationStrength.Functional ∧
     UsageContext.toStrength .TypeParameter = IntegrationStrength.Model ∧
     UsageContext.toStrength .Import = IntegrationStrength.Model ∧
     UsageContext.toStrength .TraitBound = IntegrationStrength.Contract) := by
  constructor
  · intro mn reg src fp dep c h
    unfold emitCoupling at h
    by_cases h1 : isValidDependencyPath dep.path = true
    · rw [if_neg (by simp [h1])] at h
      by_cases h2 : extractTargetModule dep.path ∉ mn ∧
          ¬ isValidDependencyPath (extractTargetModule dep.path) = true
      · rw [if_pos h2] at h
        exact absurd h (by simp)
      · rw [if_neg h2] at h
        obtain rfl := (Option.some.inj h).symm
        rfl
    · rw [if_pos (by simp [h1])] at h
      exact absurd h (by simp)
  · exact ⟨rfl, rfl, rfl, rfl, rfl, rfl, rfl, rfl, rfl, rfl⟩

/-- Witness for C3: a concrete import dependency is emitted with the
strength its context projects to. -/
theorem c3_witness :
    CouplingMetrics.strength
      { source := "m", target := "foo", strength := IntegrationStrength.Model,
        distance := Distance.DifferentModule, volatility := Volatility.Low,
        sourceCrate := none, targetCrate := none,
        targetVisibility := Visibility.Public,
        location := { filePath := some "m.rs", line := 0 } } =
      UsageContext.toStrength UsageContext.Import :=
  c3_strength_from_context.1 ["foo"] [] "m" "m.rs"
    { path := "crate::foo::Bar", kind := DependencyKind.InternalUse, line := 0,
      usage := UsageContext.Import } _ (by decide)

/-- C5 fails on the code: the claim allows balance = 1 only at strength
weight 0 (unrepresentable) or at `(strength, distance, volatility) =
(1, 0, 0)`, but the representable triple (Functional, SameModule, Low) —
weights (0.75, 0.25, 0) — also scores exactly 1. -/
theorem c5_counterexample :
    (BalanceScore.calculate
      { source := "a", target := "b", strength := IntegrationStrength.Functional,
        distance := Distance.SameModule, volatility := Volatility.Low,
        sourceCrate := none, targetCrate := none,
        targetVisibility := Visibility.Public,
        location := { filePath := none, line := 0 } }).score = 1 ∧
    ¬ (let c : CouplingMetrics :=
        { source := "a", target := "b", strength := IntegrationStrength.Functional,
          distance := Distance.SameModule, volatility := Volatility.Low,
          sourceCrate := none, targetCrate := none,
          targetVisibility := Visibility.Public,
          location := { filePath := none, line := 0 } }
      (c.strengthValue = 0 ∧ c.volatilityValue = 0) ∨
        (c.strengthValue = 1 ∧ c.distanceValue = 0 ∧ c.volatilityValue = 0)) := by
  constructor
  · norm_num [BalanceScore.calculate, CouplingMetrics.strengthValue,
      CouplingMetrics.distanceValue, CouplingMetrics.volatilityValue,
      IntegrationStrength.value, Distance.value, Volatility.value]
  · norm_num [CouplingMetrics.strengthValue, CouplingMetrics.distanceValue,
      CouplingMetrics.volatilityValue, IntegrationStrength.value,
      Distance.value, Volatility.value]

/-- C5 (amended): for every representable triple the balance score lies in
[0, 1], and it equals 1 exactly when the volatility is Low and the strength
weight equals one minus the distance weight — that is, at
(Intrusive, SameFunction, Low), (Functional, SameModule, Low) and
(Model, DifferentModule, Low); no representable strength weight is 0. -/
theorem c5_bounds_and_maximum (c : CouplingMetrics) :
    0 ≤ (BalanceScore.calculate c).score ∧
    (BalanceScore.calculate c).score ≤ 1 ∧
    ((BalanceScore.calculate c).score = 1 ↔
      c.volatility = Volatility.Low ∧ c.strengthValue = 1 - c.distanceValue) ∧
    c.strengthValue ≠ 0 := by
  obtain ⟨src, tgt, s, d, v, sc, tc, tv, loc⟩ := c
  cases s <;> cases d <;> cases v <;>
    simp only [BalanceScore.calculate, CouplingMetrics.strengthValue,
      CouplingMetrics.distanceValue, CouplingMetrics.volatilityValue,
      IntegrationStrength.value, Distance.value, Volatility.value,
      abs_eq_max_neg, max_def] <;> norm_num <;> decide

/-- C8 fails on the code: a function with 3 parameters of which 2 are
primitive has ratio 2/3 ≥ 0.6 and ≥ 3 parameters, so the claim demands an
issue, but the rule in `analyze_rust_patterns` additionally requires at
least `min_primitive_params = 3` primitive parameters and emits nothing. -/
theorem c8_counterexample :
    (3 ≤ (3 : ℕ) ∧ (0.6 : ℚ) ≤ (2 : ℚ) / (3 : ℚ)) ∧
    primitiveObsessionIssues "m"
      { name := "f", visibility := Visibility.Private, paramCount := 3,
        primitiveParamCount := 2, paramTypes := ["i32", "i32", "S"] }
      IssueThresholds.default = [] := by
  constructor
  · norm_num
  · rfl

/-- C8 (amended): with default thresholds, a PrimitiveObsession issue of
severity Low is emitted for a function iff it has at least 3 parameters, at
least 3 primitive parameters, and a primitive-parameter ratio of at least
0.6; in particular 3 primitive of 3 yields one issue and 2 primitive of 4
yields none. -/
theorem c8_primitive_obsession_rule :
    (∀ (moduleName : String) (f : FunctionDefinition),
      (primitiveObsessionIssues moduleName f IssueThresholds.default).map
          (fun i => (i.issueType, i.severity)) =
        if 3 ≤ f.paramCount ∧ 3 ≤ f.primitiveParamCount ∧
            (0.6 : ℚ) ≤ (f.primitiveParamCount : ℚ) / (f.paramCount : ℚ) then
          [(IssueType.PrimitiveObsession, Severity.Low)]
        else []) ∧
    (primitiveObsessionIssues "m"
      { name := "f", visibility := Visibility.Private, paramCount := 3,
        primitiveParamCount := 3, paramTypes := ["i32", "i32", "i32"] }
      IssueThresholds.default).length = 1 ∧
    primitiveObsessionIssues "m"
      { name := "g", visibility := Visibility.Private, paramCount := 4,
        primitiveParamCount := 2, paramTypes := ["i32", "i32", "S", "T"] }
      IssueThresholds.default = [] := by
  refine ⟨?_, ?_, ?_⟩
  · intro moduleName f
    unfold primitiveObsessionIssues
    simp only [IssueThresholds.default]
    split_ifs with h1 h2 h3 h4 <;> first | rfl | tauto
  · norm_num [primitiveObsessionIssues, IssueThresholds.default]
  · norm_num [primitiveObsessionIssues, IssueThresholds.default]

/-! ### Lemmas for cycle canonicalisation (C9) -/

lemma minPair_le : ∀ (xs : List String) (i : ℕ) (best : ℕ × String),
    (minPair xs i best).2.toList ≤ best.2.toList ∧
      ∀ x ∈ xs, (minPair xs i best).2.toList ≤ x.toList := by
  intro xs
  induction xs with
  | nil => intro i best; exact ⟨le_refl _, by simp⟩
  | cons x rest ih =>
    intro i best
    by_cases h : x.toList < best.2.toList
    · rw [minPair, if_pos h]
      obtain ⟨h1, h2⟩ := ih (i + 1) (i, x)
      refine ⟨le_trans h1 (le_of_lt h), ?_⟩
      intro y hy
      rcases List.mem_cons.mp hy with rfl | hy
      · exact h1
      · exact h2 y hy
    · rw [minPair, if_neg h]
      obtain ⟨h1, h2⟩ := ih (i + 1) best
      refine ⟨h1, ?_⟩
      intro y hy
      rcases List.mem_cons.mp hy with rfl | hy
      · exact le_trans h1 (not_lt.mp h)
      · exact h2 y hy

lemma minPair_stay : ∀ (xs : List String) (i : ℕ) (best : ℕ × String),
    (∀ x ∈ xs, ¬ x.toList < best.2.toList) → minPair xs i best = best := by
  intro xs
  induction xs with
  | nil => intro i best _; rfl
  | cons x rest ih =>
    intro i best h
    rw [minPair, if_neg (h x (List.mem_cons_self _ _))]
    exact ih (i + 1) best (fun y hy => h y (List.mem_cons_of_mem _ hy))

lemma minPair_get : ∀ (xs : List String) (i : ℕ) (best : ℕ × String) (l : List String),
    l.drop i = xs → l[best.1]? = some best.2 →
    l[(minPair xs i best).1]? = some (minPair xs i best).2 := by
  intro xs
  induction xs with
  | nil => intro i best l _ hb; exact hb
  | cons x rest ih =>
    intro i best l hdrop hb
    have hx : l[i]? = some x := by
      have h0 := List.getElem?_drop l i 0
      rw [hdrop] at h0
      simpa using h0.symm
    have hrest : l.drop (i + 1) = rest := by
      have h1 : l.drop (i + 1) = (l.drop i).drop 1 := by
        rw [List.drop_drop]
      rw [h1, hdrop]
      rfl
    by_cases h : x.toList < best.2.toList
    · rw [minPair, if_pos h]
      exact ih (i + 1) (i, x) l hrest hx
    · rw [minPair, if_neg h]
      exact ih (i + 1) best l hrest hb

lemma normalizeCycle_min_head (x : String) (xs : List String) :
    ∃ t : List String,
      normalizeCycle (x :: xs) = (minPair xs 1 (0, x)).2 :: t ∧
      (∀ y ∈ normalizeCycle (x :: xs), (minPair xs 1 (0, x)).2.toList ≤ y.toList) := by
  have hget : (x :: xs)[(minPair xs 1 (0, x)).1]? = some (minPair xs 1 (0, x)).2 :=
    minPair_get xs 1 (0, x) (x :: xs) rfl (by simp)
  have hlt : (minPair xs 1 (0, x)).1 < (x :: xs).length := by
    rcases List.getElem?_eq_some.mp hget with ⟨h, _⟩
    exact h
  have hmin : ∀ y ∈ x :: xs, (minPair xs 1 (0, x)).2.toList ≤ y.toList := by
    intro y hy
    rcases List.mem_cons.mp hy with hyx | hy
    · rw [hyx]
      exact (minPair_le xs 1 (0, x)).1
    · exact (minPair_le xs 1 (0, x)).2 y hy
  have hdropne : (x :: xs).drop ((minPair xs 1 (0, x)).1) ≠ [] := by
    apply List.ne_nil_of_length_pos
    rw [List.length_drop]
    omega
  cases hd : (x :: xs).drop ((minPair xs 1 (0, x)).1) with
  | nil => exact absurd hd hdropne
  | cons h t =>
    have hh : h = (minPair xs 1 (0, x)).2 := by
      have h0 := List.getElem?_drop (x :: xs) ((minPair xs 1 (0, x)).1) 0
      rw [hd] at h0
      simp only [List.getElem?_cons_zero, Nat.add_zero] at h0
      rw [hget] at h0
      exact Option.some.inj h0
    refine ⟨t ++ (x :: xs).take ((minPair xs 1 (0, x)).1), ?_, ?_⟩
    · rw [normalizeCycle, hd, hh, List.cons_append]
    · intro y hy
      rw [normalizeCycle] at hy
      rcases List.mem_append.mp hy with hy | hy
      · exact hmin y (List.drop_subset _ _ hy)
      · exact hmin y (List.take_subset _ _ hy)

/-- C9 (amended): for a fixed iteration order the pipeline is a pure
function, and cycle canonicalisation is idempotent and content-preserving:
`normalize_cycle` rotates its input and re-normalising a normalised cycle is
a no-op. -/
theorem c9_canonicalization (cycle : List String) :
    normalizeCycle (normalizeCycle cycle) = normalizeCycle cycle ∧
    ∃ n, normalizeCycle cycle = cycle.rotate n := by
  cases cycle with
  | nil => exact ⟨rfl, 0, rfl⟩
  | cons x xs =>
    obtain ⟨t, hnt, hmin⟩ := normalizeCycle_min_head x xs
    constructor
    · rw [hnt]
      have hstay : minPair t 1 (0, (minPair xs 1 (0, x)).2) = (0, (minPair xs 1 (0, x)).2) := by
        apply minPair_stay
        intro y hy
        exact not_lt.mpr (hmin y (by rw [hnt]; exact List.mem_cons_of_mem _ hy))
      rw [normalizeCycle, hstay]
      simp
    · refine ⟨(minPair xs 1 (0, x)).1, ?_⟩
      have hget : (x :: xs)[(minPair xs 1 (0, x)).1]? = some (minPair xs 1 (0, x)).2 :=
        minPair_get xs 1 (0, x) (x :: xs) rfl (by simp)
      have hlt : (minPair xs 1 (0, x)).1 < (x :: xs).length := by
        rcases List.getElem?_eq_some.mp hget with ⟨h, _⟩
        exact h
      rw [normalizeCycle, List.rotate_eq_drop_append_take (le_of_lt hlt)]

/-- C9 fails on the code: the same dependency edge set, iterated in two
orders a hash map may produce on two runs, yields different canonical cycle
sets — canonical cycle `[b, c]` is reported in one run and absent from the
other. -/
theorem c9_counterexample :
    graphSameSets cycleGraphA cycleGraphB = true ∧
    ["b", "c"] ∈ (detectCircularDependencies cycleGraphA).map normalizeCycle ∧
    ["b", "c"] ∉ (detectCircularDependencies cycleGraphB).map normalizeCycle := by
  exact ⟨by decide, by decide, by decide⟩

/-! ### Lemmas for the path filter (C7) -/

lemma consHead_ne_nil (c : Char) (segs : List (List Char)) : consHead c segs ≠ [] := by
  cases segs <;> simp [consHead]

lemma splitSegsList_ne_nil : ∀ (l : List Char), splitSegsList l ≠ [] := by
  intro l
  induction l using splitSegsList.induct with
  | case1 => simp [splitSegsList]
  | case2 c => simp [splitSegsList]
  | case3 c1 c2 rest h ih =>
    rw [splitSegsList, if_pos h]
    simp
  | case4 c1 c2 rest h ih =>
    rw [splitSegsList, if_neg h]
    exact consHead_ne_nil _ _

lemma splitSegsList_singleton : ∀ (l : List Char) (s : List Char),
    splitSegsList l = [s] → s = l := by
  intro l
  induction l using splitSegsList.induct with
  | case1 =>
    intro s h
    simpa [splitSegsList] using h.symm
  | case2 c =>
    intro s h
    simpa [splitSegsList] using h.symm
  | case3 c1 c2 rest h ih =>
    intro s hs
    rw [splitSegsList, if_pos h] at hs
    simp only [List.cons.injEq] at hs
    exact absurd hs.2 (splitSegsList_ne_nil rest)
  | case4 c1 c2 rest h ih =>
    intro s hs
    rw [splitSegsList, if_neg h] at hs
    cases hr : splitSegsList (c2 :: rest) with
    | nil => exact absurd hr (splitSegsList_ne_nil _)
    | cons a as =>
      rw [hr] at hs
      simp only [consHead, List.cons.injEq] at hs
      obtain ⟨hsa, has⟩ := hs
      rw [has] at hr
      rw [← hsa, ih a hr]

lemma splitSegs_self_rooted (t : List Char) :
    splitSegsList ('s' :: 'e' :: 'l' :: 'f' :: ':' :: ':' :: t) = ['s', 'e', 'l', 'f'] :: splitSegsList t := by
  cases h : splitSegsList t with
  | nil => exact absurd h (splitSegsList_ne_nil t)
  | cons a as => simp [splitSegsList, consHead, h]

lemma trimStartMatchesAux_skip {pat s : List Char}
    (h : List.isPrefixOf pat s = false) :
    ∀ n, trimStartMatchesAux pat n s = s := by
  intro n
  cases n with
  | zero => rfl
  | succ n =>
    rw [trimStartMatchesAux, if_neg]
    simp [h]

lemma trimStartMatches_skip {s pat : List Char}
    (h : List.isPrefixOf pat s = false) :
    trimStartMatches s pat = s :=
  trimStartMatchesAux_skip h _

lemma mk_toList (p : String) : String.mk p.toList = p := rfl

lemma extractTargetModule_self_rooted (p : String)
    (h : strStartsWith p "self::" = true) :
    extractTargetModule p = "self" := by
  unfold strStartsWith at h
  rw [ List.isPrefixOf_iff_prefix] at h
  obtain ⟨t, ht⟩ := h
  have ht' : p.toList = 's' :: 'e' :: 'l' :: 'f' :: ':' :: ':' :: t := by rw [← ht]; rfl
  unfold extractTargetModule
  rw [ht']
  have h1 : List.isPrefixOf "crate::".toList ('s' :: 'e' :: 'l' :: 'f' :: ':' :: ':' :: t) = false := rfl
  have h2 : List.isPrefixOf "super::".toList ('s' :: 'e' :: 'l' :: 'f' :: ':' :: ':' :: t) = false := rfl
  have h3 : List.isPrefixOf "::".toList ('s' :: 'e' :: 'l' :: 'f' :: ':' :: ':' :: t) = false := rfl
  rw [trimStartMatches_skip h1, trimStartMatches_skip h2,
    trimStartMatches_skip h3, splitSegs_self_rooted]
  rfl

lemma splitPath_len1_headI {p : String} (h : (splitPath p).length = 1) :
    (splitPath p).headI = p := by
  unfold splitPath at h ⊢
  cases hs : splitSegsList p.toList with
  | nil => exact absurd hs (splitSegsList_ne_nil _)
  | cons a as =>
    have has : as = [] := by
      rw [hs] at h
      simpa using h
    subst has
    have ha : a = p.toList := splitSegsList_singleton _ a hs
    show String.mk a = p
    rw [ha]
    exact mk_toList p

lemma isValid_false_of_commonLocal {p : String} (hp : p ∈ commonLocals) :
    isValidDependencyPath p = false := by
  fin_cases hp <;> decide

lemma isValid_false_of_spec_single {p : String}
    (h1 : (splitPath p).length = 1) (h2 : p.length ≤ 8)
    (h3 : p.toList.all (fun c => c.isLower ∨ c = '_') = true) :
    isValidDependencyPath p = false := by
  have hh := splitPath_len1_headI h1
  unfold isValidDependencyPath
  split_ifs with ha hb hc hd he <;>
    first
    | rfl
    | exact absurd ⟨h1, by rw [hh]; exact h2, by rw [hh]; exact h3⟩ hc

lemma isValid_false_of_selfUpper {p : String}
    (hf : p = "Self" ∨ strStartsWith p "Self::" = true) :
    isValidDependencyPath p = false := by
  unfold isValidDependencyPath
  split_ifs with ha hb hc hd he <;> first | rfl | exact absurd hf hb

/-- C7 (amended): identifiers matching the claim's primitive/local-variable
filter are never emitted as coupling edges — for `self::`-rooted paths
provided no analyzed module is literally named `self` — the emission pass
rejects them either at the validity filter or at the target-module check.
(The item-dependency half of the claim is refuted by the counterexample:
item-level recording is unfiltered.) -/
theorem c7_filtered_never_coupled :
    ∀ (moduleNames : List String) (reg : List (String × String × Visibility))
      (src fp : String) (dep : Dependency),
      specPrimitiveLocalFilter dep.path = true →
      "self" ∉ moduleNames →
      emitCoupling moduleNames reg src fp dep = none := by
  intro mn reg src fp dep hf hself
  unfold specPrimitiveLocalFilter at hf
  simp only [Bool.or_eq_true, Bool.and_eq_true, decide_eq_true_eq] at hf
  have hinv : isValidDependencyPath dep.path = false →
      emitCoupling mn reg src fp dep = none := by
    intro hv
    unfold emitCoupling
    rw [if_pos (by simp [hv])]
  rcases hf with ((((hf | ⟨⟨hf1, hf2⟩, hf3⟩) | hf) | hf) | hf) | hf
  · exact hinv (isValid_false_of_commonLocal hf)
  · exact hinv (isValid_false_of_spec_single hf1 hf2 hf3)
  · exact hinv (isValid_false_of_selfUpper (Or.inl hf))
  · exact hinv (by rw [hf]; decide)
  · exact hinv (isValid_false_of_selfUpper (Or.inr hf))
  · by_cases hv : isValidDependencyPath dep.path = true
    · unfold emitCoupling
      rw [if_neg (by simp [hv])]
      have htm := extractTargetModule_self_rooted dep.path hf
      rw [if_pos ⟨by rw [htm]; exact hself, by rw [htm]; decide⟩]
    · have hvf : isValidDependencyPath dep.path = false := by
        simpa using hv
      exact hinv hvf

/-- C7 fails on the code: the lowercase single-segment call `foo()` matches
the primitive/local-variable filter, yet `visit_expr_call` records it as an
item-level dependency (the filter is applied only to coupling-edge
emission, not to item dependencies). -/
theorem c7_counterexample :
    specPrimitiveLocalFilter "foo" = true ∧
    "foo" ∈ ((CouplingAnalyzer.visitExprCallPath
        { CouplingAnalyzer.new "m" with currentItem := some ("f", ItemKind.Function) }
        ["foo"]).itemDependencies.map ItemDependency.target) := by
  constructor
  · decide
  · decide

/-- Witness for C7 at the allow-listed identifier `result`. -/
theorem c7_witness :
    emitCoupling ["a"] [] "m" "m.rs"
      { path := "result", kind := DependencyKind.InternalUse, line := 0,
        usage := UsageContext.Import } = none :=
  c7_filtered_never_coupled ["a"] [] "m" "m.rs" _ (by decide) (by decide)

/-! ### Lemmas for cycle detection (C4) -/

lemma lookup_pair_mem {α β : Type} [BEq α] [LawfulBEq α] :
    ∀ {l : List (α × β)} {k : α} {v : β}, l.lookup k = some v → (k, v) ∈ l := by
  intro l
  induction l with
  | nil => intro k v h; cases h
  | cons x l ih =>
    intro k v h
    obtain ⟨a, b⟩ := x
    by_cases hk : k == a
    · simp only [List.lookup, hk] at h
      obtain rfl := Option.some.inj h
      have : k = a := eq_of_beq hk
      subst this
      exact List.mem_cons_self _ _
    · simp only [List.lookup, Bool.not_eq_true] at h
      rw [Bool.eq_false_iff.mpr hk] at h
      exact List.mem_cons_of_mem _ (ih h)

lemma pushCycle_good {P : String → Prop} {nb : String} {st : DfsState}
    (h : StGood P st) : StGood P (pushCycle nb st) := by
  unfold pushCycle
  cases hidx : st.path.findIdx? (fun x => x == nb) with
  | none => exact h
  | some idx =>
    show StGood P
      (if 2 ≤ (st.path.drop idx).length then
        { st with cycles := st.cycles ++ [st.path.drop idx] }
      else st)
    split_ifs with hlen
    · refine ⟨h.1, ?_⟩
      intro cyc hcyc m hm
      rcases List.mem_append.mp hcyc with hc | hc
      · exact h.2 cyc hc m hm
      · simp only [List.mem_singleton] at hc
        subst hc
        exact h.1 m (List.drop_subset _ _ hm)
    · exact h

lemma dfsEnter_good {P : String → Prop} {node : String} {st : DfsState}
    (hnode : P node) (h : StGood P st) : StGood P (dfsEnter node st) := by
  refine ⟨?_, h.2⟩
  intro m hm
  rcases List.mem_append.mp hm with hc | hc
  · exact h.1 m hc
  · simp only [List.mem_singleton] at hc
    subst hc
    exact hnode

lemma dfsExit_good {P : String → Prop} {node : String} {st : DfsState}
    (h : StGood P st) : StGood P (dfsExit node st) :=
  ⟨fun m hm => h.1 m (List.dropLast_subset _ hm), h.2⟩

lemma dfsVisit_good {P : String → Prop} {g : List (String × List String)}
    (hg : ∀ e ∈ g, ∀ nb ∈ e.2, P nb) :
    ∀ (fuel : ℕ) (node : String) (st : DfsState), P node → StGood P st →
      StGood P (dfsVisit fuel g node st) := by
  intro fuel
  induction fuel with
  | zero => intro node st _ h; exact h
  | succ fuel ih =>
    intro node st hnode hst
    rw [dfsVisit]
    have hnbrs : ∀ nb ∈ (g.lookup node).getD [], P nb := by
      cases hl : g.lookup node with
      | none => simp
      | some nbrs =>
        intro nb hnb
        exact hg (node, nbrs) (lookup_pair_mem hl) nb (by simpa using hnb)
    apply dfsExit_good
    have hfold : ∀ (l : List String) (acc : DfsState), (∀ nb ∈ l, P nb) → StGood P acc →
        StGood P (l.foldl
          (fun acc nb =>
            if nb ∈ acc.visited then
              if nb ∈ acc.recStack then pushCycle nb acc else acc
            else dfsVisit fuel g nb acc)
          acc) := by
      intro l
      induction l with
      | nil => intro acc _ h; exact h
      | cons nb rest ihl =>
        intro acc hl hacc
        rw [List.foldl_cons]
        apply ihl _ (fun x hx => hl x (List.mem_cons_of_mem _ hx))
        by_cases h1 : nb ∈ acc.visited
        · rw [if_pos h1]
          by_cases h2 : nb ∈ acc.recStack
          · rw [if_pos h2]
            exact pushCycle_good hacc
          · rw [if_neg h2]
            exact hacc
        · rw [if_neg h1]
          exact ih nb acc (hl nb (List.mem_cons_self _ _)) hacc
    exact hfold _ _ hnbrs (dfsEnter_good hnode hst)

lemma insertEdge_graphGood {P : String → Prop} :
    ∀ (g : List (String × List String)) (src tgt : String),
      GraphGood P g → P src → P tgt → GraphGood P (insertEdge g src tgt) := by
  intro g
  induction g with
  | nil =>
    intro src tgt _ hs ht e he
    simp only [insertEdge, List.mem_singleton] at he
    subst he
    exact ⟨hs, by simpa using ht⟩
  | cons x rest ih =>
    intro src tgt hg hs ht e he
    obtain ⟨k, nbrs⟩ := x
    unfold insertEdge at he
    by_cases hk : k = src
    · rw [if_pos hk] at he
      rcases List.mem_cons.mp he with rfl | hmem
      · refine ⟨(hg _ (List.mem_cons_self _ _)).1, ?_⟩
        intro nb hnb
        split_ifs at hnb with htgt
        · exact (hg _ (List.mem_cons_self _ _)).2 nb hnb
        · rcases List.mem_append.mp hnb with hn | hn
          · exact (hg _ (List.mem_cons_self _ _)).2 nb hn
          · simp only [List.mem_singleton] at hn
            subst hn
            exact ht
      · exact hg _ (List.mem_cons_of_mem _ hmem)
    · rw [if_neg hk] at he
      rcases List.mem_cons.mp he with rfl | hmem
      · exact hg _ (List.mem_cons_self _ _)
      · exact ih src tgt (fun e' he' => hg e' (List.mem_cons_of_mem _ he')) hs ht e hmem

lemma buildDependencyGraph_graphGood (couplings : List CouplingMetrics) :
    GraphGood (goodNode couplings) (buildDependencyGraph couplings) := by
  unfold buildDependencyGraph
  have aux : ∀ (cs : List CouplingMetrics) (g : List (String × List String)),
      (∀ c ∈ cs, c ∈ couplings) → GraphGood (goodNode couplings) g →
      GraphGood (goodNode couplings)
        (cs.foldl
          (fun g c =>
            if c.distance = Distance.DifferentCrate then g
            else insertEdge g c.source c.target)
          g) := by
    intro cs
    induction cs with
    | nil => intro g _ hg; exact hg
    | cons c rest ihc =>
      intro g hcs hg
      rw [List.foldl_cons]
      apply ihc _ (fun x hx => hcs x (List.mem_cons_of_mem _ hx))
      by_cases hd : c.distance = Distance.DifferentCrate
      · rw [if_pos hd]
        exact hg
      · rw [if_neg hd]
        exact insertEdge_graphGood g c.source c.target hg
          ⟨c, hcs c (List.mem_cons_self _ _), hd, Or.inl rfl⟩
          ⟨c, hcs c (List.mem_cons_self _ _), hd, Or.inr rfl⟩
  exact aux couplings [] (fun c hc => hc) (by intro e he; cases he)

lemma dedupCycles_subset :
    ∀ (cycles : List (List String)) (c : List String),
      c ∈ dedupCycles cycles → c ∈ cycles := by
  have aux : ∀ (l : List (List String)) (acc : List (List String)) (x : List String),
      x ∈ l.foldl
        (fun unique cyc =>
          if unique.any (fun c => normalizeCycle c == normalizeCycle cyc) then unique
          else unique ++ [cyc])
        acc →
      x ∈ acc ∨ x ∈ l := by
    intro l
    induction l with
    | nil => intro acc x h; exact Or.inl h
    | cons cyc rest ihl =>
      intro acc x h
      rw [List.foldl_cons] at h
      rcases ihl _ x h with hx | hx
      · split_ifs at hx with hdup
        · exact Or.inl hx
        · rcases List.mem_append.mp hx with hx | hx
          · exact Or.inl hx
          · simp only [List.mem_singleton] at hx
            exact Or.inr (hx ▸ List.mem_cons_self _ _)
      · exact Or.inr (List.mem_cons_of_mem _ hx)
  intro cycles c h
  rcases aux cycles [] c h with hc | hc
  · cases hc
  · exact hc

lemma detect_cycles_good (couplings : List CouplingMetrics) :
    ∀ cycle ∈ detectCircularDependencies (buildDependencyGraph couplings),
      ∀ m ∈ cycle, goodNode couplings m := by
  intro cycle hcyc m hm
  have hg := buildDependencyGraph_graphGood couplings
  set g := buildDependencyGraph couplings with hgdef
  unfold detectCircularDependencies at hcyc
  have hfold : ∀ (entries : List (String × List String)) (st : DfsState) (fuel : ℕ),
      (∀ e ∈ entries, goodNode couplings e.1) → StGood (goodNode couplings) st →
      StGood (goodNode couplings)
        (entries.foldl
          (fun st e => if e.1 ∈ st.visited then st else dfsVisit fuel g e.1 st) st) := by
    intro entries
    induction entries with
    | nil => intro st fuel _ hst; exact hst
    | cons e rest ihe =>
      intro st fuel hent hst
      rw [List.foldl_cons]
      apply ihe _ _ (fun x hx => hent x (List.mem_cons_of_mem _ hx))
      by_cases hv : e.1 ∈ st.visited
      · rw [if_pos hv]
        exact hst
      · rw [if_neg hv]
        exact dfsVisit_good (fun e' he' => (hg e' he').2) _ e.1 st
          (hent e (List.mem_cons_self _ _)) hst
  have hfin : StGood (goodNode couplings)
      (g.foldl
        (fun st e =>
          if e.1 ∈ st.visited then st
          else dfsVisit ((g.map Prod.fst ++ (g.map Prod.snd).flatten).length + 1) g e.1 st)
        ⟨[], [], [], []⟩) := by
    apply hfold
    · intro e he
      exact (hg e he).1
    · exact ⟨fun m hm => absurd hm (List.not_mem_nil m), fun c hc => absurd hc (List.not_mem_nil c)⟩
  exact hfin.2 cycle (dedupCycles_subset _ _ hcyc) m hm

/-! ### Lemmas for the deduplication invariant (C6) -/

lemma addDependency_seen_mem (st : CouplingAnalyzer) (p : String)
    (k : DependencyKind) (u : UsageContext) (key : String × UsageContext) :
    (key ∈ (st.addDependency p k u).seenDependencies ↔
      key ∈ st.seenDependencies ∨ key = (p, u)) := by
  unfold CouplingAnalyzer.addDependency
  split_ifs with h
  · constructor
    · exact Or.inl
    · rintro (hk | rfl)
      · exact hk
      · exact h
  · simp [List.mem_cons]
    tauto

lemma addDependency_count (st : CouplingAnalyzer) (p : String)
    (k : DependencyKind) (u : UsageContext) (key : String × UsageContext) :
    ((st.addDependency p k u).dependencies.map depKey).count key =
      (st.dependencies.map depKey).count key +
        if (p, u) ∉ st.seenDependencies ∧ key = (p, u) then 1 else 0 := by
  unfold CouplingAnalyzer.addDependency
  split_ifs with h h2 h3
  · exact absurd h h2.1
  · simp
  · obtain rfl := h3.2
    simp [depKey, List.count_append, List.count_cons]
  · have hne : ¬ key = (p, u) := fun hk => h3 ⟨h, hk⟩
    simp [depKey, List.count_append, List.count_cons, hne]

lemma runAdd_foldl_aux (reqs : List (String × DependencyKind × UsageContext)) :
    ∀ (st : CouplingAnalyzer) (key : String × UsageContext),
      (key ∈ (reqs.foldl (fun st r => st.addDependency r.1 r.2.1 r.2.2) st).seenDependencies ↔
        key ∈ st.seenDependencies ∨ key ∈ reqs.map (fun r => (r.1, r.2.2))) ∧
      (((reqs.foldl (fun st r => st.addDependency r.1 r.2.1 r.2.2) st).dependencies.map
          depKey).count key =
        (st.dependencies.map depKey).count key +
          if key ∉ st.seenDependencies ∧ key ∈ reqs.map (fun r => (r.1, r.2.2)) then 1
          else 0) := by
  induction reqs with
  | nil => intro st key; simp
  | cons r rest ih =>
    intro st key
    obtain ⟨p, k, u⟩ := r
    constructor
    · rw [List.foldl_cons, (ih _ key).1, addDependency_seen_mem]
      simp only [List.map_cons, List.mem_cons]
      tauto
    · rw [List.foldl_cons, (ih _ key).2, addDependency_count]
      by_cases hB : key = (p, u)
      · subst hB
        by_cases hA : (p, u) ∈ st.seenDependencies <;>
          simp [hA, addDependency_seen_mem]
      · by_cases hA : key ∈ st.seenDependencies <;>
          by_cases hD : key ∈ rest.map (fun r => (r.1, r.2.2)) <;>
          simp [hA, hB, hD, addDependency_seen_mem]

lemma count_inst_bridge {α : Type} [DecidableEq α] [inst : BEq α] [@LawfulBEq α inst]
    (l : List α) (a : α) :
    @List.count α inst a l = @List.count α instBEqOfDecidableEq a l := by
  induction l with
  | nil => rfl
  | cons x l ih =>
    rw [@List.count_cons _ inst, @List.count_cons _ instBEqOfDecidableEq, ih]
    by_cases h : a = x
    · simp [h]
    · have h1 : (@BEq.beq _ inst a x) = false := by simpa using h
      have h2 : (@BEq.beq _ instBEqOfDecidableEq a x) = false := by
        simp [instBEqOfDecidableEq, h]
      simp [h1, h2]

lemma length_filterMap_eq_length_filter {α β : Type} (f : α → Option β)
    (l : List α) :
    (l.filterMap f).length = (l.filter (fun a => (f a).isSome)).length := by
  induction l with
  | nil => rfl
  | cons a l ih =>
    cases h : f a <;> simp [List.filterMap_cons, List.filter_cons, h, ih]

/-- C6: within a single analyzed file, `add_dependency` deduplicates by
`(path, usage context)`: however the visitor calls it, the resulting
dependency list contains each key exactly once if it was requested (and
never twice); consequently the couplings emitted for the file are in
bijection with a duplicate-free list of `(target identifier, context)`
keys — one coupling record per `(source module, target identifier,
UsageContext)` per file. -/
theorem c6_deduplication (moduleName : String)
    (reqs : List (String × DependencyKind × UsageContext)) :
    (∀ key : String × UsageContext,
      ((runAddDependencies moduleName reqs).dependencies.map depKey).count key =
        if key ∈ reqs.map (fun r => (r.1, r.2.2)) then 1 else 0) ∧
    ((runAddDependencies moduleName reqs).dependencies.map depKey).Nodup ∧
    (∀ (mn : List String) (reg : List (String × String × Visibility)) (fp : String),
      (((runAddDependencies moduleName reqs).dependencies.filter
          (fun d => (emitCoupling mn reg moduleName fp d).isSome)).map depKey).Nodup ∧
      (fileCouplings mn reg moduleName fp
          (runAddDependencies moduleName reqs).dependencies).length =
        ((runAddDependencies moduleName reqs).dependencies.filter
          (fun d => (emitCoupling mn reg moduleName fp d).isSome)).length) := by
  have hcount : ∀ key : String × UsageContext,
      ((runAddDependencies moduleName reqs).dependencies.map depKey).count key =
        if key ∈ reqs.map (fun r => (r.1, r.2.2)) then 1 else 0 := by
    intro key
    unfold runAddDependencies
    rw [(runAdd_foldl_aux reqs (CouplingAnalyzer.new moduleName) key).2]
    simp only [CouplingAnalyzer.new, List.map_nil, List.count_nil, Nat.zero_add]
    split_ifs with h1 h2 <;> simp_all
  have hnodup : ((runAddDependencies moduleName reqs).dependencies.map depKey).Nodup := by
    rw [List.nodup_iff_count_le_one]
    intro key
    rw [← count_inst_bridge, hcount key]
    split_ifs <;> omega
  refine ⟨hcount, hnodup, ?_⟩
  intro mn reg fp
  constructor
  · exact hnodup.sublist (((runAddDependencies moduleName reqs).dependencies.filter_sublist
      (p := fun d => (emitCoupling mn reg moduleName fp d).isSome)).map depKey)
  · exact length_filterMap_eq_length_filter _ _

/-- C4: external-crate edges are excluded from cycle detection and from
issue emission: every module appearing in a reported dependency cycle is an
endpoint of some coupling with distance ≠ DifferentCrate (the graph is built
from internal couplings only), and the per-edge issue rules return the empty
list on every DifferentCrate coupling. -/
theorem c4_external_crate_excluded :
    (∀ (couplings : List CouplingMetrics) (cycle : List String) (m : String),
        cycle ∈ detectCircularDependencies (buildDependencyGraph couplings) →
        m ∈ cycle →
        ∃ c ∈ couplings, c.distance ≠ Distance.DifferentCrate ∧
          (m = c.source ∨ m = c.target)) ∧
    (∀ (c : CouplingMetrics) (th : IssueThresholds),
        c.distance = Distance.DifferentCrate →
        identifyIssuesWithThresholds c th = []) := by
  constructor
  · intro couplings cycle m hcyc hm
    exact detect_cycles_good couplings cycle hcyc m hm
  · intro c th h
    unfold identifyIssuesWithThresholds
    rw [if_pos h]

/-- Witness for C4 on a concrete two-module cycle and a concrete
external-crate coupling. -/
theorem c4_witness :
    (∃ c ∈ ([{ source := "a", target := "b", strength := IntegrationStrength.Model,
               distance := Distance.DifferentModule, volatility := Volatility.Low,
               sourceCrate := none, targetCrate := none,
               targetVisibility := Visibility.Public,
               location := { filePath := none, line := 0 } },
             { source := "b", target := "a", strength := IntegrationStrength.Model,
               distance := Distance.DifferentModule, volatility := Volatility.Low,
               sourceCrate := none, targetCrate := none,
               targetVisibility := Visibility.Public,
               location := { filePath := none, line := 0 } }] : List CouplingMetrics),
        c.distance ≠ Distance.DifferentCrate ∧ ("a" = c.source ∨ "a" = c.target)) ∧
    identifyIssuesWithThresholds
      { source := "a", target := "serde", strength := IntegrationStrength.Model,
        distance := Distance.DifferentCrate, volatility := Volatility.Low,
        sourceCrate := none, targetCrate := none,
        targetVisibility := Visibility.Public,
        location := { filePath := none, line := 0 } }
      IssueThresholds.default = [] :=
  ⟨c4_external_crate_excluded.1 _ ["a", "b"] "a" (by decide) (by decide),
   c4_external_crate_excluded.2 _ IssueThresholds.default rfl⟩

/-- C10: the InappropriateIntimacy branch of the per-edge rules is
unreachable — its precondition implies the GlobalComplexity precondition,
which fires first and suppresses it, so no coupling ever yields an
InappropriateIntimacy issue. -/
theorem c10_inappropriate_intimacy_unreachable (c : CouplingMetrics)
    (th : IssueThresholds) :
    IssueType.InappropriateIntimacy ∉
      (identifyIssuesWithThresholds c th).map CouplingIssue.issueType := by
  unfold identifyIssuesWithThresholds
  split_ifs with h1 h2 h3 h4 h5 h6 h7 h8 h9 h10 <;>
    simp_all

end CargoCoupling
